import Mathlib

/-!
Verification development for the Kafka ecommerce-event producer
(`src/producer.py`).

The script's only control logic lives in three places, each embedded
shallowly below:

* `generate_event` — builds one event record; the random draws
  (`random.choice`, `random.uniform`, faker fields, the timestamp) are
  passed in as explicit parameters, and Python float arithmetic on the
  amount is idealised over `ℚ` with `round2` modelling Python's
  `round(x, 2)` (round-half-to-even at two decimal places).
* `produce_events` — the production loop.  Its interaction with the
  Kafka producer and the operating system is captured by a finite trace
  of per-iteration `Outcome`s (send acknowledged, `KafkaError`,
  a non-Kafka exception, `KeyboardInterrupt` before or after the send
  resolved).  The loop is the function `runLoop` folding over that
  trace; it returns the observable `Action` log (events generated,
  sends acknowledged, warnings, termination messages), the final
  `event_count`, and how the loop exited.  The `finally` block
  (`flush()` then `close()`) is the wrapper `produce_events`.
* `main` — argument validation, producer construction and return
  value, embedded as `mainRun`; `exitStatus` models `exit(main())`
  at `producer.py:202` (in Python, `exit(None)` gives process
  status 0).
-/

namespace Producer

/-- `EVENT_TYPES` at `producer.py:25`. -/
def EVENT_TYPES : List String := ["view", "add_to_cart", "purchase"]

/-- One ecommerce event record, as built by `generate_event`
(`producer.py:28-37`). -/
structure Event where
  user_id : String
  event_type : String
  product : String
  timestamp : String
  amount : ℚ
  deriving DecidableEq, Repr

/-- Python's round-half-to-even on a rational, to the nearest integer:
the idealisation of `round(x)` used by `round(x, 2)`. -/
def pyRoundInt (q : ℚ) : ℤ :=
  if q - ⌊q⌋ < 1/2 then ⌊q⌋
  else if 1/2 < q - ⌊q⌋ then ⌊q⌋ + 1
  else if ⌊q⌋ % 2 = 0 then ⌊q⌋ else ⌊q⌋ + 1

/-- Python's `round(x, 2)` idealised over `ℚ`: round `100 * x`
half-to-even to an integer, then divide by `100`. -/
def round2 (q : ℚ) : ℚ := (pyRoundInt (q * 100) : ℚ) / 100

/-- `generate_event` (`producer.py:28-37`), with the random draws made
explicit: `uid` is `fake.uuid4()`, `choice` the index drawn by
`random.choice(EVENT_TYPES)`, `word` is `fake.word()`, `ts` the
timestamp string, and `u` the value drawn by `random.uniform(10, 100)`. -/
def generate_event (uid : String) (choice : Fin EVENT_TYPES.length)
    (word : String) (ts : String) (u : ℚ) : Event :=
  { user_id := uid
    event_type := EVENT_TYPES.get choice
    product := word
    timestamp := ts
    amount := round2 u }

/-- Index of `"view"` in `EVENT_TYPES`, a concrete value for the
`random.choice` draw. -/
def idx0 : Fin EVENT_TYPES.length := ⟨0, by decide⟩

/-- What the environment does during one iteration of the production
loop (`producer.py:80-106`):
* `success` — `future.get` returns metadata; the iteration counts the
  event, prints the record, sleeps, and the loop continues;
* `deliveryFail` — `future.get` (or `send`) raises a `KafkaError`
  (including a timeout of the 10 s wait); caught at line 101;
* `fatalError` — some step of the iteration raises an exception that is
  neither `KafkaError` nor `KeyboardInterrupt` (for instance inside
  `generate_event` or the serializer);
* `interruptBefore` — `KeyboardInterrupt` arrives before the send
  resolved, so `event_count` was not incremented this iteration;
* `interruptAfter` — `KeyboardInterrupt` arrives after a successful
  counted send (for instance during `time.sleep`). -/
inductive Outcome
  | success
  | deliveryFail
  | fatalError
  | interruptBefore
  | interruptAfter
  deriving DecidableEq, Repr

/-- Observable actions of `produce_events`, in program order:
`genEvent` is a call to `generate_event` (line 86), `sendOk` a send
whose future resolved successfully (lines 90-94), `warnFail` the
"Failed to send event" warning (line 102), `reportStop` the
"Produced n events. Stopping." message (line 82), `reportInterrupt`
the "Interrupted by user. Produced n events total." message
(line 109), `reportError` the "Error: ..." message (line 111),
`flushCall` and `closeCall` the calls in the `finally` block
(lines 113-114). -/
inductive Action
  | genEvent
  | sendOk
  | warnFail
  | reportStop (n : Nat)
  | reportInterrupt (n : Nat)
  | reportError
  | flushCall
  | closeCall
  deriving DecidableEq, Repr

/-- How the `try` body of `produce_events` ended: `capReached` via the
`break` at line 83, `interrupted` via the `except KeyboardInterrupt`
at line 108, `errored` via the `except Exception` at line 110;
`outOfTrace` means the supplied finite trace was exhausted with the
loop still running (the Python loop itself is unbounded). -/
inductive ExitKind
  | capReached
  | interrupted
  | errored
  | outOfTrace
  deriving DecidableEq, Repr

/-- The guard `if max_events and event_count >= max_events` at
`producer.py:81`.  `max_events` is `None` or a Python `int`; `None`
and `0` are falsy, so the comparison is only reached for a nonzero
`max_events`. -/
def capHit (maxEvents : Option Int) (count : Nat) : Bool :=
  match maxEvents with
  | none => false
  | some m => decide (m ≠ 0 ∧ m ≤ (count : Int))

/-- The `while True` loop of `produce_events` (`producer.py:80-106`),
run against a finite trace of iteration outcomes starting from
`event_count = count`.  Returns the emitted action log, the final
`event_count`, and the exit kind. -/
def runLoop (maxEvents : Option Int) : Nat → List Outcome →
    List Action × Nat × ExitKind
  | count, trace =>
    if capHit maxEvents count then
      ([Action.reportStop count], count, ExitKind.capReached)
    else
      match trace with
      | [] => ([], count, ExitKind.outOfTrace)
      | o :: rest =>
        match o with
        | Outcome.success =>
            let r := runLoop maxEvents (count + 1) rest
            (Action.genEvent :: Action.sendOk :: r.1, r.2)
        | Outcome.deliveryFail =>
            let r := runLoop maxEvents count rest
            (Action.genEvent :: Action.warnFail :: r.1, r.2)
        | Outcome.fatalError =>
            ([Action.genEvent, Action.reportError], count, ExitKind.errored)
        | Outcome.interruptBefore =>
            ([Action.genEvent, Action.reportInterrupt count], count,
              ExitKind.interrupted)
        | Outcome.interruptAfter =>
            ([Action.genEvent, Action.sendOk,
                Action.reportInterrupt (count + 1)], count + 1,
              ExitKind.interrupted)

/-- Result of one call to `produce_events`: the full action log
(loop actions followed by the `finally` block's calls), the final
`event_count`, the exit kind, and whether the call raised an
exception to its caller (which can only come from `flush()` or
`close()` in the `finally` block, lines 112-115). -/
structure ProduceResult where
  actions : List Action
  eventsSent : Nat
  exitKind : ExitKind
  raised : Bool
  deriving DecidableEq, Repr

/-- `produce_events` (`producer.py:58-115`): run the loop, then the
`finally` block calls `producer.flush()` and `producer.close()`.
`flushRaises` / `closeRaises` say whether those two calls raise; an
exception raised there propagates to the caller (`raised = true`),
and a `flush()` exception skips the `close()` call. -/
def produce_events (maxEvents : Option Int) (trace : List Outcome)
    (flushRaises closeRaises : Bool) : ProduceResult :=
  let r := runLoop maxEvents 0 trace
  if flushRaises then
    ⟨r.1 ++ [Action.flushCall], r.2.1, r.2.2, true⟩
  else if closeRaises then
    ⟨r.1 ++ [Action.flushCall, Action.closeCall], r.2.1, r.2.2, true⟩
  else
    ⟨r.1 ++ [Action.flushCall, Action.closeCall], r.2.1, r.2.2, false⟩

/-- Result of `main` (`producer.py:118-198`): whether a validation
error message was printed, whether `produce_events` was entered, and
the Python return value of `main` (`none` models returning `None`). -/
structure MainResult where
  errorReported : Bool
  loopStarted : Bool
  retVal : Option Int
  deriving DecidableEq, Repr

/-- `main` (`producer.py:173-198`) after argument parsing: validate the
rate bounds (lines 176-182; both failure branches print an error and
`return` with no value, i.e. return `None`), then construct the
producer (`constructFails` models `create_producer` raising) and run
`produce_events`; any exception from those two is caught at line 194
and `main` returns `1`; otherwise it returns `0`. -/
def mainRun (rateMin rateMax : ℚ) (constructFails : Bool)
    (maxEvents : Option Int) (trace : List Outcome)
    (flushRaises closeRaises : Bool) : MainResult :=
  if rateMin < 0 ∨ rateMax < 0 then ⟨true, false, none⟩
  else if rateMin > rateMax then ⟨true, false, none⟩
  else if constructFails then ⟨false, false, some 1⟩
  else
    let r := produce_events maxEvents trace flushRaises closeRaises
    if r.raised then ⟨false, true, some 1⟩
    else ⟨false, true, some 0⟩

/-- `exit(main())` at `producer.py:201-202`: `exit(None)` exits with
process status `0`, `exit(n)` with status `n`. -/
def exitStatus (r : MainResult) : Int :=
  match r.retVal with
  | none => 0
  | some n => n

/-- A trace in which the environment only ever acknowledges a send or
raises a `KafkaError`: no interrupt, no foreign exception. -/
def benign (t : List Outcome) : Prop :=
  ∀ o ∈ t, o = Outcome.success ∨ o = Outcome.deliveryFail

instance (t : List Outcome) : Decidable (benign t) := by
  unfold benign; infer_instance

/-! ### Rounding lemmas for the event amount -/

theorem pyRoundInt_ge (n : ℤ) (q : ℚ) (h : (n : ℚ) ≤ q) :
    n ≤ pyRoundInt q := by
  have hf : n ≤ ⌊q⌋ := Int.le_floor.mpr h
  unfold pyRoundInt
  split_ifs <;> omega

theorem pyRoundInt_le (n : ℤ) (q : ℚ) (h : q ≤ (n : ℚ)) :
    pyRoundInt q ≤ n := by
  have hf : (⌊q⌋ : ℚ) ≤ q := Int.floor_le q
  have hfn : ⌊q⌋ ≤ n := by exact_mod_cast hf.trans h
  unfold pyRoundInt
  split_ifs with h1 h2 h3
  · exact hfn
  · -- here `1/2 < q - ⌊q⌋`, so `⌊q⌋ < q ≤ n`, whence `⌊q⌋ + 1 ≤ n`
    have hlt : (⌊q⌋ : ℚ) < (n : ℚ) := by linarith
    have : ⌊q⌋ < n := by exact_mod_cast hlt
    omega
  · exact hfn
  · -- here `q - ⌊q⌋ = 1/2` (neither `< 1/2` nor `> 1/2`)
    have hge : (1 : ℚ)/2 ≤ q - ⌊q⌋ := by linarith
    have hlt : (⌊q⌋ : ℚ) < (n : ℚ) := by linarith
    have : ⌊q⌋ < n := by exact_mod_cast hlt
    omega

theorem round2_ge (a : ℤ) (q : ℚ) (h : (a : ℚ) ≤ q) :
    (a : ℚ) ≤ round2 q := by
  have h100 : ((a * 100 : ℤ) : ℚ) ≤ q * 100 := by push_cast; linarith
  have := pyRoundInt_ge (a * 100) (q * 100) h100
  have hc : ((a * 100 : ℤ) : ℚ) ≤ (pyRoundInt (q * 100) : ℚ) := by
    exact_mod_cast this
  unfold round2
  rw [le_div_iff₀ (by norm_num : (0:ℚ) < 100)]
  push_cast at hc ⊢
  linarith

theorem round2_le (a : ℤ) (q : ℚ) (h : q ≤ (a : ℚ)) :
    round2 q ≤ (a : ℚ) := by
  have h100 : q * 100 ≤ ((a * 100 : ℤ) : ℚ) := by push_cast; linarith
  have := pyRoundInt_le (a * 100) (q * 100) h100
  have hc : (pyRoundInt (q * 100) : ℚ) ≤ ((a * 100 : ℤ) : ℚ) := by
    exact_mod_cast this
  unfold round2
  rw [div_le_iff₀ (by norm_num : (0:ℚ) < 100)]
  push_cast at hc ⊢
  linarith

/-- C2: For every event returned by the event factory, its
`event_type` is one of `view`, `add_to_cart`, `purchase`, and —
given that `random.uniform(10, 100)` returned a value in
`[10, 100]` — its `amount` lies in `[10.00, 100.00]` and is an
integer number of hundredths (two fractional decimal digits). -/
theorem generate_event_spec (uid word ts : String)
    (choice : Fin EVENT_TYPES.length) (u : ℚ)
    (hlo : (10 : ℚ) ≤ u) (hhi : u ≤ 100) :
    ((generate_event uid choice word ts u).event_type = "view" ∨
      (generate_event uid choice word ts u).event_type = "add_to_cart" ∨
      (generate_event uid choice word ts u).event_type = "purchase") ∧
    (10 : ℚ) ≤ (generate_event uid choice word ts u).amount ∧
    (generate_event uid choice word ts u).amount ≤ 100 ∧
    ∃ k : ℤ, (generate_event uid choice word ts u).amount = (k : ℚ) / 100 := by
  refine ⟨?_, ?_, ?_, ?_⟩
  · fin_cases choice <;> simp [generate_event, EVENT_TYPES]
  · have := round2_ge 10 u (by exact_mod_cast hlo)
    simpa [generate_event] using this
  · have := round2_le 100 u (by exact_mod_cast hhi)
    simpa [generate_event] using this
  · exact ⟨pyRoundInt (u * 100), rfl⟩

/-- Witness for C2 at `u = 1111/20 = 55.55` (`round2` gives `5556/100`
by round-half-to-even). -/
theorem generate_event_spec_witness :
    ((10 : ℚ) ≤ 1111/20 ∧ (1111/20 : ℚ) ≤ 100) ∧
    ((generate_event "u" idx0 "book" "t" (1111/20)).event_type = "view" ∨
      (generate_event "u" idx0 "book" "t" (1111/20)).event_type = "add_to_cart" ∨
      (generate_event "u" idx0 "book" "t" (1111/20)).event_type = "purchase") ∧
    (10 : ℚ) ≤ (generate_event "u" idx0 "book" "t" (1111/20)).amount ∧
    (generate_event "u" idx0 "book" "t" (1111/20)).amount ≤ 100 ∧
    ∃ k : ℤ, (generate_event "u" idx0 "book" "t" (1111/20)).amount = (k : ℚ) / 100 :=
  ⟨⟨by norm_num, by norm_num⟩,
    generate_event_spec "u" "book" "t" idx0 (1111/20)
      (by norm_num) (by norm_num)⟩

/-! ### Unfolding lemmas for the production loop -/

theorem capHit_true_iff (m : Int) (c : Nat) :
    capHit (some m) c = true ↔ m ≠ 0 ∧ m ≤ (c : Int) := by
  simp [capHit]

theorem capHit_false_iff (m : Int) (c : Nat) :
    capHit (some m) c = false ↔ m = 0 ∨ (c : Int) < m := by
  simp [capHit]
  omega

theorem runLoop_cap (m : Option Int) (c : Nat) (t : List Outcome)
    (h : capHit m c = true) :
    runLoop m c t = ([Action.reportStop c], c, ExitKind.capReached) := by
  unfold runLoop
  rw [if_pos h]

theorem runLoop_nil (m : Option Int) (c : Nat) (h : capHit m c = false) :
    runLoop m c [] = ([], c, ExitKind.outOfTrace) := by
  unfold runLoop
  rw [if_neg (by simp [h])]

theorem runLoop_success_cons (m : Option Int) (c : Nat)
    (rest : List Outcome) (h : capHit m c = false) :
    runLoop m c (Outcome.success :: rest) =
      (Action.genEvent :: Action.sendOk :: (runLoop m (c + 1) rest).1,
        (runLoop m (c + 1) rest).2) := by
  conv_lhs => unfold runLoop
  rw [if_neg (by simp [h])]

theorem runLoop_deliveryFail_cons (m : Option Int) (c : Nat)
    (rest : List Outcome) (h : capHit m c = false) :
    runLoop m c (Outcome.deliveryFail :: rest) =
      (Action.genEvent :: Action.warnFail :: (runLoop m c rest).1,
        (runLoop m c rest).2) := by
  conv_lhs => unfold runLoop
  rw [if_neg (by simp [h])]

theorem runLoop_fatal_cons (m : Option Int) (c : Nat)
    (rest : List Outcome) (h : capHit m c = false) :
    runLoop m c (Outcome.fatalError :: rest) =
      ([Action.genEvent, Action.reportError], c, ExitKind.errored) := by
  unfold runLoop
  rw [if_neg (by simp [h])]

theorem runLoop_interruptBefore_cons (m : Option Int) (c : Nat)
    (rest : List Outcome) (h : capHit m c = false) :
    runLoop m c (Outcome.interruptBefore :: rest) =
      ([Action.genEvent, Action.reportInterrupt c], c,
        ExitKind.interrupted) := by
  unfold runLoop
  rw [if_neg (by simp [h])]

theorem runLoop_interruptAfter_cons (m : Option Int) (c : Nat)
    (rest : List Outcome) (h : capHit m c = false) :
    runLoop m c (Outcome.interruptAfter :: rest) =
      ([Action.genEvent, Action.sendOk, Action.reportInterrupt (c + 1)],
        c + 1, ExitKind.interrupted) := by
  unfold runLoop
  rw [if_neg (by simp [h])]

/-! ### Counting and invariant lemmas for the production loop -/

/-- `event_count` counts exactly the successful sends: the number of
`sendOk` actions plus the starting count equals the final count. -/
theorem runLoop_sendOk_count (m : Option Int) :
    ∀ (t : List Outcome) (c : Nat),
      (runLoop m c t).1.count Action.sendOk + c = (runLoop m c t).2.1 := by
  intro t
  induction t with
  | nil =>
      intro c
      cases hc : capHit m c
      · rw [runLoop_nil m c hc]; simp
      · rw [runLoop_cap m c [] hc]; simp
  | cons o rest ih =>
      intro c
      cases hc : capHit m c
      · cases o
        · rw [runLoop_success_cons m c rest hc]
          have := ih (c + 1)
          simp only [List.count_cons]
          simp
          omega
        · rw [runLoop_deliveryFail_cons m c rest hc]
          have := ih c
          simp only [List.count_cons]
          simp
          omega
        · rw [runLoop_fatal_cons m c rest hc]; simp
        · rw [runLoop_interruptBefore_cons m c rest hc]; simp
        · rw [runLoop_interruptAfter_cons m c rest hc]; simp; omega
      · rw [runLoop_cap m c _ hc]; simp

/-- The loop body never calls `flush()` or `close()`: those happen only
in the `finally` block. -/
theorem runLoop_no_drain_actions (m : Option Int) :
    ∀ (t : List Outcome) (c : Nat),
      Action.flushCall ∉ (runLoop m c t).1 ∧
      Action.closeCall ∉ (runLoop m c t).1 := by
  intro t
  induction t with
  | nil =>
      intro c
      cases hc : capHit m c
      · rw [runLoop_nil m c hc]; simp
      · rw [runLoop_cap m c [] hc]; simp
  | cons o rest ih =>
      intro c
      cases hc : capHit m c
      · cases o
        · rw [runLoop_success_cons m c rest hc]
          have := ih (c + 1)
          simp_all
        · rw [runLoop_deliveryFail_cons m c rest hc]
          have := ih c
          simp_all
        · rw [runLoop_fatal_cons m c rest hc]; simp
        · rw [runLoop_interruptBefore_cons m c rest hc]; simp
        · rw [runLoop_interruptAfter_cons m c rest hc]; simp
      · rw [runLoop_cap m c _ hc]; simp

/-- When the loop exits through `except KeyboardInterrupt`, the
"Interrupted by user. Produced n events total." message reports the
final `event_count`. -/
theorem runLoop_interrupted_report (m : Option Int) :
    ∀ (t : List Outcome) (c : Nat),
      (runLoop m c t).2.2 = ExitKind.interrupted →
      Action.reportInterrupt (runLoop m c t).2.1 ∈ (runLoop m c t).1 := by
  intro t
  induction t with
  | nil =>
      intro c h
      cases hc : capHit m c
      · rw [runLoop_nil m c hc] at h ⊢; simp at h
      · rw [runLoop_cap m c [] hc] at h ⊢; simp at h
  | cons o rest ih =>
      intro c h
      cases hc : capHit m c
      · cases o
        · rw [runLoop_success_cons m c rest hc] at h ⊢
          have := ih (c + 1)
          simp_all
        · rw [runLoop_deliveryFail_cons m c rest hc] at h ⊢
          have := ih c
          simp_all
        · rw [runLoop_fatal_cons m c rest hc] at h ⊢; simp at h
        · rw [runLoop_interruptBefore_cons m c rest hc] at h ⊢; simp
        · rw [runLoop_interruptAfter_cons m c rest hc] at h ⊢; simp
      · rw [runLoop_cap m c _ hc] at h ⊢; simp at h

/-- Completion on benign traces: if the environment acknowledges at
least `N` sends (interspersed with any number of `KafkaError`s), a
loop capped at `N > 0` ends at exactly `N` events via the cap
`break`. -/
theorem runLoop_benign_cap (N : Nat) (hN : 0 < N) :
    ∀ (t : List Outcome) (c : Nat), benign t → c ≤ N →
      N ≤ c + t.count Outcome.success →
      (runLoop (some (N : Int)) c t).2.1 = N ∧
      (runLoop (some (N : Int)) c t).2.2 = ExitKind.capReached := by
  intro t
  induction t with
  | nil =>
      intro c _ hcle hcount
      have hcN : c = N := by simp at hcount; omega
      have hc : capHit (some (N : Int)) c = true := by
        rw [capHit_true_iff]; omega
      rw [runLoop_cap _ _ _ hc]
      simp [hcN]
  | cons o rest ih =>
      intro c hb hcle hcount
      cases hc : capHit (some (N : Int)) c
      · have hlt : c < N := by
          have := (capHit_false_iff (N : Int) c).mp hc
          omega
        rcases hb o (List.mem_cons_self o rest) with ho | ho <;> subst ho
        · rw [runLoop_success_cons _ _ _ hc]
          refine ih (c + 1) (fun o ho => hb o (List.mem_cons_of_mem _ ho))
            hlt ?_
          simp [List.count_cons] at hcount ⊢
          omega
        · rw [runLoop_deliveryFail_cons _ _ _ hc]
          refine ih c (fun o ho => hb o (List.mem_cons_of_mem _ ho))
            hcle ?_
          simp [List.count_cons] at hcount ⊢
          omega
      · have := (capHit_true_iff (N : Int) c).mp hc
        have hcN : c = N := by omega
        rw [runLoop_cap _ _ _ hc]
        simp [hcN]

/-- The cap invariant: starting from `event_count ≤ N` with a positive
cap `N`, the final count never exceeds `N`. -/
theorem runLoop_count_le (N : Nat) (hN : 0 < N) :
    ∀ (t : List Outcome) (c : Nat), c ≤ N →
      (runLoop (some (N : Int)) c t).2.1 ≤ N := by
  intro t
  induction t with
  | nil =>
      intro c hcle
      cases hc : capHit (some (N : Int)) c
      · rw [runLoop_nil _ _ hc]; exact hcle
      · rw [runLoop_cap _ _ _ hc]; exact hcle
  | cons o rest ih =>
      intro c hcle
      cases hc : capHit (some (N : Int)) c
      · have hlt : c < N := by
          have := (capHit_false_iff (N : Int) c).mp hc
          omega
        cases o
        · rw [runLoop_success_cons _ _ _ hc]; exact ih (c + 1) hlt
        · rw [runLoop_deliveryFail_cons _ _ _ hc]; exact ih c hcle
        · rw [runLoop_fatal_cons _ _ _ hc]; exact hcle
        · rw [runLoop_interruptBefore_cons _ _ _ hc]; exact hcle
        · rw [runLoop_interruptAfter_cons _ _ _ hc]; exact hlt
      · rw [runLoop_cap _ _ _ hc]; exact hcle

/-- On an all-success trace long enough to reach a positive cap `N`,
the loop performs exactly `N - c` further iterations: the number of
`generate_event` calls plus the starting count is `N`. -/
theorem runLoop_allSuccess_gen (N : Nat) (hN : 0 < N) :
    ∀ (t : List Outcome) (c : Nat), (∀ o ∈ t, o = Outcome.success) →
      c ≤ N → N ≤ c + t.length →
      (runLoop (some (N : Int)) c t).1.count Action.genEvent + c = N := by
  intro t
  induction t with
  | nil =>
      intro c _ hcle hlen
      have hcN : c = N := by simp at hlen; omega
      have hc : capHit (some (N : Int)) c = true := by
        rw [capHit_true_iff]; omega
      rw [runLoop_cap _ _ _ hc]
      simp [hcN]
  | cons o rest ih =>
      intro c hall hcle hlen
      cases hc : capHit (some (N : Int)) c
      · have hlt : c < N := by
          have := (capHit_false_iff (N : Int) c).mp hc
          omega
        have ho : o = Outcome.success := hall o (List.mem_cons_self o rest)
        subst ho
        rw [runLoop_success_cons _ _ _ hc]
        have := ih (c + 1) (fun o ho => hall o (List.mem_cons_of_mem _ ho))
          hlt (by simp at hlen ⊢; omega)
        simp only [List.count_cons]
        simp
        omega
      · have := (capHit_true_iff (N : Int) c).mp hc
        have hcN : c = N := by omega
        rw [runLoop_cap _ _ _ hc]
        simp [hcN]

/-! ### Claim theorems -/

/-- C1: with `max_events = N` (`N > 0`) and a Delivery Channel that
acknowledges every send, the production loop performs exactly `N`
successful sends (`events_sent = N`, `N` `sendOk` records), iterates
exactly `N` times, exits through the cap `break`, and reaches the
closed state (the action log ends with `flush()` then `close()`). -/
theorem cap_produces_exactly_N (N : Nat) (hN : 0 < N) (t : List Outcome)
    (hall : ∀ o ∈ t, o = Outcome.success) (hlen : N ≤ t.length) :
    (produce_events (some (N : Int)) t false false).eventsSent = N ∧
    (produce_events (some (N : Int)) t false false).exitKind =
      ExitKind.capReached ∧
    (produce_events (some (N : Int)) t false false).actions.count
      Action.sendOk = N ∧
    (produce_events (some (N : Int)) t false false).actions.count
      Action.genEvent = N ∧
    ∃ pre, (produce_events (some (N : Int)) t false false).actions =
      pre ++ [Action.flushCall, Action.closeCall] := by
  have hb : benign t := fun o ho => Or.inl (hall o ho)
  have hceq : t.count Outcome.success = t.length := by
    rw [List.count_eq_length]
    intro b hbmem
    exact (hall b hbmem).symm
  have hmain := runLoop_benign_cap N hN t 0 hb (Nat.zero_le N)
    (by omega)
  have hsend := runLoop_sendOk_count (some (N : Int)) t 0
  have hgen := runLoop_allSuccess_gen N hN t 0 hall (Nat.zero_le N)
    (by omega)
  refine ⟨?_, ?_, ?_, ?_, ?_⟩
  · simpa [produce_events] using hmain.1
  · simpa [produce_events] using hmain.2
  · simp [produce_events, List.count_append]
    omega
  · simp [produce_events, List.count_append]
    omega
  · exact ⟨(runLoop (some (N : Int)) 0 t).1, by simp [produce_events]⟩

/-- Witness for C1 at `N = 3` with three acknowledged sends. -/
theorem cap_produces_exactly_N_witness :
    (0 : Nat) < 3 ∧
    ((produce_events (some (3 : Int))
        [Outcome.success, Outcome.success, Outcome.success]
        false false).eventsSent = 3 ∧
      (produce_events (some (3 : Int))
        [Outcome.success, Outcome.success, Outcome.success]
        false false).exitKind = ExitKind.capReached ∧
      (produce_events (some (3 : Int))
        [Outcome.success, Outcome.success, Outcome.success]
        false false).actions.count Action.sendOk = 3 ∧
      (produce_events (some (3 : Int))
        [Outcome.success, Outcome.success, Outcome.success]
        false false).actions.count Action.genEvent = 3 ∧
      ∃ pre, (produce_events (some (3 : Int))
        [Outcome.success, Outcome.success, Outcome.success]
        false false).actions =
          pre ++ [Action.flushCall, Action.closeCall]) :=
  ⟨by decide,
    cap_produces_exactly_N 3 (by decide) _ (by decide) (by decide)⟩

/-- C5: a `KafkaError` during a send (including a timeout of the 10 s
wait) makes the loop emit one warning, leave `event_count` unchanged,
and continue with the next iteration without re-driving the send; and
on any benign trace with at least `N` acknowledged sends a loop
capped at `N > 0` still completes exactly `N` successful sends. -/
theorem delivery_failure_warn_no_count_no_retry :
    (∀ (m : Option Int) (c : Nat) (rest : List Outcome),
        capHit m c = false →
        runLoop m c (Outcome.deliveryFail :: rest) =
          (Action.genEvent :: Action.warnFail :: (runLoop m c rest).1,
            (runLoop m c rest).2)) ∧
    (∀ (N : Nat) (t : List Outcome), 0 < N → benign t →
        N ≤ t.count Outcome.success →
        (produce_events (some (N : Int)) t false false).eventsSent = N ∧
        (produce_events (some (N : Int)) t false false).exitKind =
          ExitKind.capReached) := by
  constructor
  · exact fun m c rest h => runLoop_deliveryFail_cons m c rest h
  · intro N t hN hb hcnt
    have := runLoop_benign_cap N hN t 0 hb (Nat.zero_le N) (by omega)
    exact ⟨by simpa [produce_events] using this.1,
      by simpa [produce_events] using this.2⟩

/-- Witness for C5: a failing send at count 0 with no cap, and a
two-event cap completed through the trace success, fail, success. -/
theorem delivery_failure_warn_no_count_no_retry_witness :
    (runLoop none 0 [Outcome.deliveryFail] =
      (Action.genEvent :: Action.warnFail :: (runLoop none 0 []).1,
        (runLoop none 0 []).2)) ∧
    ((produce_events (some (2 : Int))
        [Outcome.success, Outcome.deliveryFail, Outcome.success]
        false false).eventsSent = 2 ∧
      (produce_events (some (2 : Int))
        [Outcome.success, Outcome.deliveryFail, Outcome.success]
        false false).exitKind = ExitKind.capReached) :=
  ⟨delivery_failure_warn_no_count_no_retry.1 none 0 [] (by decide),
    delivery_failure_warn_no_count_no_retry.2 2
      [Outcome.success, Outcome.deliveryFail, Outcome.success]
      (by decide) (by decide) (by decide)⟩

/-- C6: when a `KeyboardInterrupt` ends the run, `flush()` and
`close()` are each invoked exactly once, the reported count is the
final `event_count`, and that count equals the number of successful
sends observed before the interrupt. -/
theorem interrupt_cleanup_and_report (m : Option Int)
    (t : List Outcome)
    (h : (produce_events m t false false).exitKind =
      ExitKind.interrupted) :
    (produce_events m t false false).actions.count Action.flushCall = 1 ∧
    (produce_events m t false false).actions.count Action.closeCall = 1 ∧
    Action.reportInterrupt (produce_events m t false false).eventsSent ∈
      (produce_events m t false false).actions ∧
    (produce_events m t false false).eventsSent =
      (produce_events m t false false).actions.count Action.sendOk := by
  have hnd := runLoop_no_drain_actions m t 0
  have h1 : (runLoop m 0 t).1.count Action.flushCall = 0 :=
    List.count_eq_zero.mpr hnd.1
  have h2 : (runLoop m 0 t).1.count Action.closeCall = 0 :=
    List.count_eq_zero.mpr hnd.2
  have hexit : (runLoop m 0 t).2.2 = ExitKind.interrupted := by
    simpa [produce_events] using h
  have hrep := runLoop_interrupted_report m t 0 hexit
  have hsend := runLoop_sendOk_count m t 0
  refine ⟨?_, ?_, ?_, ?_⟩
  · simp [produce_events, List.count_append, h1]
  · simp [produce_events, List.count_append, h2]
  · simp only [produce_events]
    simp only [Bool.false_eq_true, if_false]
    exact List.mem_append_left _ hrep
  · simp [produce_events, List.count_append]
    omega

/-- Witness for C6: one acknowledged send, then an interrupt before
the second send resolves. -/
theorem interrupt_cleanup_and_report_witness :
    (produce_events none [Outcome.success, Outcome.interruptBefore]
      false false).exitKind = ExitKind.interrupted ∧
    ((produce_events none [Outcome.success, Outcome.interruptBefore]
        false false).actions.count Action.flushCall = 1 ∧
      (produce_events none [Outcome.success, Outcome.interruptBefore]
        false false).actions.count Action.closeCall = 1 ∧
      Action.reportInterrupt
        (produce_events none [Outcome.success, Outcome.interruptBefore]
          false false).eventsSent ∈
        (produce_events none [Outcome.success, Outcome.interruptBefore]
          false false).actions ∧
      (produce_events none [Outcome.success, Outcome.interruptBefore]
        false false).eventsSent =
        (produce_events none [Outcome.success, Outcome.interruptBefore]
          false false).actions.count Action.sendOk) :=
  ⟨by decide,
    interrupt_cleanup_and_report none
      [Outcome.success, Outcome.interruptBefore] (by decide)⟩

/-- C7: with a positive cap, the `events_sent >= max_events` check at
the top of the loop runs before `generate_event` — once the cap is
hit the loop performs no `generate_event` at all — and consequently
the final `event_count` never exceeds the cap. -/
theorem cap_checked_before_generation (m : Nat) (hm : 0 < m) :
    (∀ (c : Nat) (t : List Outcome),
        capHit (some (m : Int)) c = true →
        (runLoop (some (m : Int)) c t).1.count Action.genEvent = 0) ∧
    (∀ t : List Outcome,
        (produce_events (some (m : Int)) t false false).eventsSent
          ≤ m) := by
  constructor
  · intro c t hc
    rw [runLoop_cap _ _ _ hc]
    simp
  · intro t
    have := runLoop_count_le m hm t 0 (Nat.zero_le m)
    simpa [produce_events] using this

/-- Witness for C7 at cap `3`, starting at the cap and on a spare
success trace. -/
theorem cap_checked_before_generation_witness :
    (0 : Nat) < 3 ∧
    (runLoop (some (3 : Int)) 3 [Outcome.success]).1.count
      Action.genEvent = 0 ∧
    (produce_events (some (3 : Int)) [Outcome.success]
      false false).eventsSent ≤ 3 :=
  ⟨by decide,
    (cap_checked_before_generation 3 (by decide)).1 3 [Outcome.success]
      (by decide),
    (cap_checked_before_generation 3 (by decide)).2 [Outcome.success]⟩

/-- C8: `max_events = 0` is falsy in the guard
`if max_events and ...`, so the loop behaves exactly as with
`max_events = None`; a negative `max_events` satisfies the cap test
immediately, so the loop stops with zero events produced. -/
theorem max_events_zero_unbounded_negative_immediate :
    (∀ (t : List Outcome) (c : Nat),
        runLoop (some 0) c t = runLoop none c t) ∧
    (∀ (t : List Outcome) (fr cr : Bool),
        produce_events (some 0) t fr cr = produce_events none t fr cr) ∧
    (∀ m : Int, m < 0 → ∀ t : List Outcome,
        (produce_events (some m) t false false).eventsSent = 0 ∧
        (produce_events (some m) t false false).exitKind =
          ExitKind.capReached ∧
        (produce_events (some m) t false false).actions =
          [Action.reportStop 0, Action.flushCall, Action.closeCall]) := by
  have h1 : ∀ (t : List Outcome) (c : Nat),
      runLoop (some 0) c t = runLoop none c t := by
    intro t
    induction t with
    | nil =>
        intro c
        rw [runLoop_nil (some 0) c (by simp [capHit]),
          runLoop_nil none c rfl]
    | cons o rest ih =>
        intro c
        have hz : capHit (some 0) c = false := by simp [capHit]
        have hn : capHit none c = false := rfl
        cases o
        · rw [runLoop_success_cons _ _ _ hz,
            runLoop_success_cons _ _ _ hn, ih]
        · rw [runLoop_deliveryFail_cons _ _ _ hz,
            runLoop_deliveryFail_cons _ _ _ hn, ih]
        · rw [runLoop_fatal_cons _ _ _ hz,
            runLoop_fatal_cons _ _ _ hn]
        · rw [runLoop_interruptBefore_cons _ _ _ hz,
            runLoop_interruptBefore_cons _ _ _ hn]
        · rw [runLoop_interruptAfter_cons _ _ _ hz,
            runLoop_interruptAfter_cons _ _ _ hn]
  refine ⟨h1, ?_, ?_⟩
  · intro t fr cr
    unfold produce_events
    rw [h1]
  · intro m hm t
    have hc : capHit (some m) 0 = true := by
      rw [capHit_true_iff]; omega
    refine ⟨?_, ?_, ?_⟩ <;>
      simp [produce_events, runLoop_cap _ _ _ hc]

/-- Witness for C8: equality of the two runs on a sample trace, and
the immediate stop for `max_events = -5`. -/
theorem max_events_zero_unbounded_negative_immediate_witness :
    runLoop (some 0) 0 [Outcome.success] =
      runLoop none 0 [Outcome.success] ∧
    produce_events (some 0) [Outcome.success] false false =
      produce_events none [Outcome.success] false false ∧
    ((produce_events (some (-5)) [Outcome.success]
        false false).eventsSent = 0 ∧
      (produce_events (some (-5)) [Outcome.success]
        false false).exitKind = ExitKind.capReached ∧
      (produce_events (some (-5)) [Outcome.success]
        false false).actions =
        [Action.reportStop 0, Action.flushCall, Action.closeCall]) :=
  ⟨max_events_zero_unbounded_negative_immediate.1 [Outcome.success] 0,
    max_events_zero_unbounded_negative_immediate.2.1 [Outcome.success]
      false false,
    max_events_zero_unbounded_negative_immediate.2.2 (-5) (by decide)
      [Outcome.success]⟩

/-- C9: an exception that is not a `KafkaError` (nor an interrupt)
raised during an iteration ends the loop at once — the remainder of
the trace is never consumed, only the error message is emitted — and
`produce_events` still returns normally to its caller (the exception
is handled inside the function; only `flush()`/`close()` can raise
past it). -/
theorem nonkafka_error_stops_loop_and_is_swallowed :
    (∀ (m : Option Int) (c : Nat) (rest : List Outcome),
        capHit m c = false →
        runLoop m c (Outcome.fatalError :: rest) =
          ([Action.genEvent, Action.reportError], c,
            ExitKind.errored)) ∧
    (∀ (m : Option Int) (t : List Outcome),
        (produce_events m t false false).raised = false) := by
  constructor
  · exact fun m c rest h => runLoop_fatal_cons m c rest h
  · intro m t
    simp [produce_events]

/-- Witness for C9: a fatal error in the first iteration with further
trace entries behind it. -/
theorem nonkafka_error_stops_loop_and_is_swallowed_witness :
    runLoop none 0 [Outcome.fatalError, Outcome.success] =
      ([Action.genEvent, Action.reportError], 0, ExitKind.errored) ∧
    (produce_events none [Outcome.fatalError, Outcome.success]
      false false).raised = false :=
  ⟨nonkafka_error_stops_loop_and_is_swallowed.1 none 0
      [Outcome.success] (by decide),
    nonkafka_error_stops_loop_and_is_swallowed.2 none
      [Outcome.fatalError, Outcome.success]⟩

/-- C10: on every terminating path of the loop — cap reached,
interrupt, or in-loop exception — the action log ends with exactly
one `flush()` followed by exactly one `close()`, and neither call
occurs earlier. -/
theorem every_termination_flushes_then_closes (m : Option Int)
    (t : List Outcome)
    (h : (produce_events m t false false).exitKind ≠
      ExitKind.outOfTrace) :
    (produce_events m t false false).actions.count Action.flushCall = 1 ∧
    (produce_events m t false false).actions.count Action.closeCall = 1 ∧
    ∃ pre, (produce_events m t false false).actions =
        pre ++ [Action.flushCall, Action.closeCall] ∧
      Action.flushCall ∉ pre ∧ Action.closeCall ∉ pre := by
  have hnd := runLoop_no_drain_actions m t 0
  have h1 : (runLoop m 0 t).1.count Action.flushCall = 0 :=
    List.count_eq_zero.mpr hnd.1
  have h2 : (runLoop m 0 t).1.count Action.closeCall = 0 :=
    List.count_eq_zero.mpr hnd.2
  refine ⟨?_, ?_, ⟨(runLoop m 0 t).1, by simp [produce_events],
    hnd.1, hnd.2⟩⟩
  · simp [produce_events, List.count_append, h1]
  · simp [produce_events, List.count_append, h2]

/-- Witness for C10: the error termination path. -/
theorem every_termination_flushes_then_closes_witness :
    (produce_events none [Outcome.fatalError] false false).exitKind ≠
      ExitKind.outOfTrace ∧
    ((produce_events none [Outcome.fatalError]
        false false).actions.count Action.flushCall = 1 ∧
      (produce_events none [Outcome.fatalError]
        false false).actions.count Action.closeCall = 1 ∧
      ∃ pre, (produce_events none [Outcome.fatalError]
          false false).actions =
          pre ++ [Action.flushCall, Action.closeCall] ∧
        Action.flushCall ∉ pre ∧ Action.closeCall ∉ pre) :=
  ⟨by decide,
    every_termination_flushes_then_closes none [Outcome.fatalError]
      (by decide)⟩

/-- C3: on an invalid rate configuration (`rate_min < 0` or
`rate_min > rate_max`), `main` prints the error and never starts the
loop — but it returns with a bare `return`, i.e. `None`, so
`exit(main())` terminates the process with status `0`, not the
non-zero status the specification requires. -/
theorem validation_error_exits_zero :
    (mainRun (-1) 5 false none [] false false).errorReported = true ∧
    (mainRun (-1) 5 false none [] false false).loopStarted = false ∧
    exitStatus (mainRun (-1) 5 false none [] false false) = 0 ∧
    (mainRun 3 2 false none [] false false).errorReported = true ∧
    (mainRun 3 2 false none [] false false).loopStarted = false ∧
    exitStatus (mainRun 3 2 false none [] false false) = 0 := by
  refine ⟨?_, ?_, ?_, ?_, ?_, ?_⟩ <;>
    norm_num [mainRun, exitStatus]

/-- C4 counterexample: an unrecoverable non-Kafka error during the
run (the claim's "fatal error ... arising during the run") is caught
inside `produce_events`, `main` returns `0`, and the process exits
with status `0` — not `1` as the claim states. -/
theorem run_error_exit_zero_counterexample :
    (produce_events none [Outcome.fatalError] false false).exitKind =
      ExitKind.errored ∧
    (mainRun 1 5 false none [Outcome.fatalError] false false).loopStarted
      = true ∧
    exitStatus (mainRun 1 5 false none [Outcome.fatalError] false false)
      = 0 := by
  refine ⟨by decide, ?_, ?_⟩ <;>
    norm_num [mainRun, exitStatus, produce_events]

/-- C4 (amended): for a valid rate configuration, the exit status is
`1` exactly when producer construction fails or the final
`flush()`/`close()` raises; it is `0` otherwise — including runs in
which an unrecoverable error stopped the loop, since that error is
handled inside `produce_events`. -/
theorem exit_status_characterisation (rateMin rateMax : ℚ)
    (h0 : 0 ≤ rateMin) (h1 : 0 ≤ rateMax) (h2 : rateMin ≤ rateMax)
    (cf fr cr : Bool) (m : Option Int) (t : List Outcome) :
    (exitStatus (mainRun rateMin rateMax cf m t fr cr) = 1 ↔
      (cf = true ∨ fr = true ∨ cr = true)) ∧
    (exitStatus (mainRun rateMin rateMax cf m t fr cr) = 0 ↔
      (cf = false ∧ fr = false ∧ cr = false)) := by
  have hv1 : ¬(rateMin < 0 ∨ rateMax < 0) := by
    push_neg
    exact ⟨h0, h1⟩
  have hv2 : ¬(rateMin > rateMax) := not_lt.mpr h2
  unfold mainRun
  rw [if_neg hv1, if_neg hv2]
  cases cf <;> cases fr <;> cases cr <;>
    simp [produce_events, exitStatus]

/-- Witness for the amended C4: construction failure with a valid
configuration exits with status `1`. -/
theorem exit_status_characterisation_witness :
    ((0 : ℚ) ≤ 1 ∧ (0 : ℚ) ≤ 2 ∧ (1 : ℚ) ≤ 2) ∧
    ((exitStatus (mainRun 1 2 true none [] false false) = 1 ↔
        (true = true ∨ false = true ∨ false = true)) ∧
      (exitStatus (mainRun 1 2 true none [] false false) = 0 ↔
        (true = false ∧ false = false ∧ false = false))) :=
  ⟨⟨by norm_num, by norm_num, by norm_num⟩,
    exit_status_characterisation 1 2 (by norm_num) (by norm_num)
      (by norm_num) true false false none []⟩

end Producer
